import Mathlib

/-!
Verification of the LMArena bridge core against its natural-language design.

The development shallowly embeds the JavaScript source:

* `parseAndDereference` / `dereference`   (src/index.js, the reference-linked
  JSON decoder used by auxiliary calls);
* the line-oriented stream-protocol decoder and its chunk reassembly loop
  (`processLine` and the read loop of `runInferenceV2`,
  src/lib/SessionManager.mjs);
* the session state machine (`createSession`, `sendMessage`,
  `addFillerAssistantMessage`, the retry-removal step, `shuffleSession`);
* the orchestrator turn drivers `runInference` (legacy) and `runInferenceV2`,
  including their HTTP error recovery branches and the result shape of
  `updateArenaAuth`.

JavaScript idiosyncrasies that the claims depend on are modelled explicitly:

* JSON values are the inductive `JVal`; `JSON.parse` is the executable
  `jsonParse` (fuel-based recursive descent over the JSON grammar);
* `delete arr[i]` leaves a hole in a JS array, so the wire message graph is a
  `List (Option LMMessage)` with `none` for holes; `Array.prototype.find`
  visits holes and hands `undefined` to the predicate, whose member access
  then raises a `TypeError`;
* JS truthiness is `jsTruthy` (an array is always truthy).
-/

/-- A JSON value as produced by `JSON.parse`.  Numbers keep their literal
text; no claim inspects numeric magnitude. -/
inductive JVal where
  | null : JVal
  | bool : Bool → JVal
  | num : String → JVal
  | str : String → JVal
  | arr : List JVal → JVal
  | obj : List (String × JVal) → JVal
deriving Repr, Inhabited

/-- Errors a modelled JavaScript execution can raise. -/
inductive JsErr where
  | typeError : JsErr
  | syntaxError : JsErr
deriving Repr, DecidableEq

/-- The opening-brace character, written by code point to keep literal braces
out of the source text. -/
def lbraceChar : Char := Char.ofNat 123

/-- The closing-brace character, by code point. -/
def rbraceChar : Char := Char.ofNat 125

/-- JSON insignificant whitespace. -/
def isJsonWS (c : Char) : Bool :=
  c = ' ' || c = '\t' || c = '\n' || c = '\r'

/-- Drop leading JSON whitespace. -/
def skipWS (cs : List Char) : List Char := cs.dropWhile isJsonWS

/-- Hex digit value, for string escapes. -/
def hexVal (c : Char) : Option Nat :=
  if '0' ≤ c ∧ c ≤ '9' then some (c.toNat - '0'.toNat)
  else if 'a' ≤ c ∧ c ≤ 'f' then some (c.toNat - 'a'.toNat + 10)
  else if 'A' ≤ c ∧ c ≤ 'F' then some (c.toNat - 'A'.toNat + 10)
  else none

/-- Parse the body of a JSON string after the opening quote; returns the
decoded characters and the input remaining after the closing quote. -/
def parseStringBody : List Char → Option (List Char × List Char)
  | [] => none
  | '"' :: rest => some ([], rest)
  | '\\' :: 'u' :: h1 :: h2 :: h3 :: h4 :: rest => do
    let n1 ← hexVal h1
    let n2 ← hexVal h2
    let n3 ← hexVal h3
    let n4 ← hexVal h4
    let (s, r) ← parseStringBody rest
    pure (Char.ofNat (((n1 * 16 + n2) * 16 + n3) * 16 + n4) :: s, r)
  | '\\' :: e :: rest => do
    let c ←
      if e = '"' then some '"'
      else if e = '\\' then some '\\'
      else if e = '/' then some '/'
      else if e = 'n' then some '\n'
      else if e = 't' then some '\t'
      else if e = 'r' then some '\r'
      else if e = 'b' then some (Char.ofNat 8)
      else if e = 'f' then some (Char.ofNat 12)
      else none
    let (s, r) ← parseStringBody rest
    pure (c :: s, r)
  | c :: rest =>
    if c.toNat < 32 then none
    else do
      let (s, r) ← parseStringBody rest
      pure (c :: s, r)

/-- Parse the digit run of a JSON number component. -/
def takeDigits (cs : List Char) : List Char × List Char :=
  (cs.takeWhile Char.isDigit, cs.dropWhile Char.isDigit)

/-- Parse a JSON number literal (grammar `-?(0|[1-9]\d*)(\.\d+)?([eE][+-]?\d+)?`),
returning its literal characters and the rest of the input. -/
def parseNumberLit (cs : List Char) : Option (List Char × List Char) := do
  let (sign, cs1) := match cs with
    | '-' :: r => (['-'], r)
    | _ => ([], cs)
  let (intPart, cs2) ← match cs1 with
    | '0' :: r => some (['0'], r)
    | c :: _ =>
      if c.isDigit then
        let (ds, r) := takeDigits cs1
        some (ds, r)
      else none
    | [] => none
  let (fracPart, cs3) ← match cs2 with
    | '.' :: r =>
      let (ds, r2) := takeDigits r
      if ds = [] then none else some ('.' :: ds, r2)
    | _ => some ([], cs2)
  let (expPart, cs4) ← match cs3 with
    | 'e' :: r | 'E' :: r =>
      let (es, r1) := match r with
        | '+' :: r2 => (['+'], r2)
        | '-' :: r2 => (['-'], r2)
        | _ => ([], r)
      let (ds, r2) := takeDigits r1
      if ds = [] then none else some ('e' :: es ++ ds, r2)
    | _ => some ([], cs3)
  pure (sign ++ intPart ++ fracPart ++ expPart, cs4)

mutual

/-- Fuel-based recursive-descent parser for one JSON value (the model of
`JSON.parse`'s grammar).  Leading whitespace is skipped. -/
def parseJVal : Nat → List Char → Option (JVal × List Char)
  | 0, _ => none
  | fuel + 1, cs =>
    match skipWS cs with
    | '"' :: rest =>
      match parseStringBody rest with
      | some (s, r) => some (.str (String.mk s), r)
      | none => none
    | 't' :: 'r' :: 'u' :: 'e' :: r => some (.bool true, r)
    | 'f' :: 'a' :: 'l' :: 's' :: 'e' :: r => some (.bool false, r)
    | 'n' :: 'u' :: 'l' :: 'l' :: r => some (.null, r)
    | c :: rest =>
      if c = lbraceChar then
        match skipWS rest with
        | c2 :: r2 =>
          if c2 = rbraceChar then some (.obj [], r2)
          else
            match parseObjItems fuel (c2 :: r2) with
            | some (kvs, r) => some (.obj kvs, r)
            | none => none
        | [] => none
      else if c = '[' then
        match skipWS rest with
        | ']' :: r2 => some (.arr [], r2)
        | r2 =>
          match parseArrItems fuel r2 with
          | some (xs, r) => some (.arr xs, r)
          | none => none
      else
        match parseNumberLit (c :: rest) with
        | some (lit, r) => some (.num (String.mk lit), r)
        | none => none
    | [] => none

/-- Parse comma-separated array elements up to the closing bracket. -/
def parseArrItems : Nat → List Char → Option (List JVal × List Char)
  | 0, _ => none
  | fuel + 1, cs => do
    let (v, r) ← parseJVal fuel cs
    match skipWS r with
    | ',' :: r2 => do
      let (xs, r3) ← parseArrItems fuel r2
      pure (v :: xs, r3)
    | ']' :: r2 => pure ([v], r2)
    | _ => none

/-- Parse comma-separated object members up to the closing brace. -/
def parseObjItems : Nat → List Char → Option (List (String × JVal) × List Char)
  | 0, _ => none
  | fuel + 1, cs =>
    match skipWS cs with
    | '"' :: rest => do
      let (k, r) ← parseStringBody rest
      match skipWS r with
      | ':' :: r2 => do
        let (v, r3) ← parseJVal fuel r2
        match skipWS r3 with
        | ',' :: r4 => do
          let (kvs, r5) ← parseObjItems fuel r4
          pure ((String.mk k, v) :: kvs, r5)
        | c :: r4 =>
          if c = rbraceChar then pure ((String.mk k, v) :: [], r4) else none
        | [] => none
      | _ => none
    | _ => none

end

/-- The model of `JSON.parse` on a character list: parse one value, allow
trailing whitespace, reject anything else. -/
def jsonParseL (cs : List Char) : Option JVal :=
  match parseJVal (cs.length + 1) cs with
  | some (v, rest) => if skipWS rest = [] then some v else none
  | none => none

/-- The model of `JSON.parse` on a string. -/
def jsonParse (s : String) : Option JVal := jsonParseL s.toList

example : jsonParse "\"hello\"" = some (.str "hello") := by rfl
example : jsonParse "\x7b\"a\":\"$@1\"\x7d" = some (.obj [("a", .str "$@1")]) := by rfl
example : jsonParse "[1,true,null]" = some (.arr [.num "1", .bool true, .null]) := by rfl
example : jsonParse "\x7b" = none := by rfl
example : jsonParse "\"hel" = none := by rfl
example : jsonParse "I[5]" = none := by rfl

/-! ## Dereferencing decoder (src/index.js, `parseAndDereference`) -/

/-- Lookup in the modelled `Map` built by the decoder. -/
def mapGet (m : List (String × JVal)) (k : String) : Option JVal :=
  m.lookup k

/-- `Map.prototype.set`: later writes to the same id overwrite earlier ones. -/
def mapSet (m : List (String × JVal)) (k : String) (v : JVal) :
    List (String × JVal) :=
  (k, v) :: m.filter (fun p => p.1 ≠ k)

/-- The reference pattern of the decoder: a string exactly matching the
regular expression `^\$@(\d+)$`; yields the referenced id digits. -/
def parseRef (s : String) : Option String :=
  match s.toList with
  | '$' :: '@' :: rest =>
    if rest ≠ [] ∧ rest.all Char.isDigit then some (String.mk rest) else none
  | _ => none

/-- The inner `dereference` of `parseAndDereference` (src/index.js:232).
Reference strings are replaced by the recursive resolution of the referenced
id (missing id resolves to null); arrays and objects are resolved
element-wise; other scalars pass through.  The source recursion is unbounded
(the wire format guarantees acyclic references); the `fuel` argument is the
embedding's termination bound and is spent on every step. -/
def dereference (m : List (String × JVal)) : Nat → JVal → JVal
  | 0, v => v
  | fuel + 1, v =>
    match v with
    | .str s =>
      match parseRef s with
      | some refId =>
        match mapGet m refId with
        | some w => dereference m fuel w
        | none => .null
      | none => .str s
    | .arr xs => .arr (xs.map (dereference m fuel))
    | .obj kvs => .obj (kvs.map (fun kv => (kv.1, dereference m fuel kv.2)))
    | w => w

/-- Errors `parseAndDereference` can raise. -/
inductive DerefErr where
  /-- `Failed to parse JSON for ID "<id>" ... | Content: <content>` -/
  | decodeFail (id content : String) : DerefErr
  /-- `Could not find the root object with ID '0'.` -/
  | rootMissing : DerefErr
deriving Repr, DecidableEq

/-- Split a record line at its first colon into id and payload;
`none` models `indexOf(":") === -1`. -/
def splitAtColon (line : String) : Option (String × String) :=
  match line.toList.findIdx? (· = ':') with
  | some i => some (String.mk (line.toList.take i), String.mk (line.toList.drop (i + 1)))
  | none => none

/-- `content.charAt(0)` check of the decoder: only payloads whose first
character opens an object, array or string are data lines. -/
def isDataPayload (content : String) : Bool :=
  match content.toList with
  | c :: _ => c = lbraceChar || c = '[' || c = '"'
  | [] => false

/-- The line loop of `parseAndDereference` (src/index.js:193): build the id →
value mapping, skipping blank lines, lines without a colon and non-data
payloads; a JSON decode failure on a data line is fatal and carries the
offending id and raw content. -/
def buildDataMap : List String → List (String × JVal) →
    Except DerefErr (List (String × JVal))
  | [], m => .ok m
  | line :: rest, m =>
    if line = "" then buildDataMap rest m
    else
      match splitAtColon line with
      | none => buildDataMap rest m
      | some (id, content) =>
        if isDataPayload content then
          match jsonParse content with
          | some v => buildDataMap rest (mapSet m id v)
          | none => .error (.decodeFail id content)
        else buildDataMap rest m

/-- `responseText.trim()` of the decoder (JS `String.prototype.trim`). -/
def jsTrim (s : String) : String :=
  String.mk (((s.toList.dropWhile isJsonWS).reverse.dropWhile isJsonWS).reverse)

/-- Split the trimmed text on newlines, as `split("\n")` does. -/
def splitNewlines (s : String) : List String :=
  (s.toList.splitOn '\n').map String.mk

/-- Fuel used to resolve the root: a reference chain visits distinct record
lines, so the input length bounds its depth. -/
def derefFuel (text : String) : Nat := text.length + 1

/-- `parseAndDereference` (src/index.js:185): a falsy input returns null;
otherwise build the mapping and resolve the value at root id "0", failing if
that id is absent. -/
def parseAndDereference (text : String) : Except DerefErr JVal :=
  if text = "" then .ok .null
  else
    match buildDataMap (splitNewlines (jsTrim text)) [] with
    | .error e => .error e
    | .ok m =>
      match mapGet m "0" with
      | some root => .ok (dereference m (derefFuel text) root)
      | none => .error .rootMissing

example : parseAndDereference "0:\"$@1\"\n1:\"hello\"" = .ok (.str "hello") := by rfl
example : parseAndDereference "0:\x7b\"a\":\"$@1\"\x7d" =
    .ok (.obj [("a", .null)]) := by rfl
example : parseAndDereference "1:\"hello\"" = .error .rootMissing := by rfl
example : parseAndDereference "nocolonline\n0:\"x\"" = .ok (.str "x") := by rfl
example : parseAndDereference "I[instruction]\n0:\"x\"" = .ok (.str "x") := by rfl
example : parseAndDereference "0:\x7bbad" = .error (.decodeFail "0" "\x7bbad") := by rfl

/-! ## Stream protocol decoder (src/lib/SessionManager.mjs, `runInferenceV2`) -/

/-- A decoded stream record forwarded to the caller:
`{ event: code, data: payload }`. -/
structure StreamEvent where
  event : String
  data : JVal
deriving Repr

/-- An attachment reference on a wire message.  Fields keep their JavaScript
values (`name: att.r2Key` may be null, `a2` items provide arbitrary JSON). -/
structure WireAttachment where
  contentType : JVal
  name : JVal
  url : JVal
deriving Repr

/-- One node of the wire message graph (the objects pushed onto
`session.lmSession.messages`). -/
structure LMMessage where
  id : String
  role : String
  content : String
  experimental_attachments : List WireAttachment
  evaluationSessionId : String
  modelId : Option String
  parentMessageIds : List String
  participantPosition : String
  status : String
deriving Repr

/-- JS truthiness of a JSON-shaped value: `null`, `false`, the empty string
and numeric zero are falsy; arrays and objects are always truthy. -/
def jsTruthy : JVal → Bool
  | .null => false
  | .bool b => b
  | .str s => s ≠ ""
  | .num lit =>
    let digits := (if lit.toList.head? = some '-' then lit.toList.drop 1 else
      lit.toList).takeWhile (fun c => c.isDigit || c = '.')
    ¬ digits.all (fun c => c = '0' || c = '.')
  | .arr _ => true
  | .obj _ => true

/-- Member access `item.k` on a decoded JSON value.  Access on `null` raises
a TypeError; a missing member and access on a non-object yield `undefined`
(conflated with `.null` here — every use only compares the result with a
string or tests truthiness, where the two behave identically). -/
def jsField (v : JVal) (k : String) : Except JsErr JVal :=
  match v with
  | .null => .error .typeError
  | .obj kvs => .ok ((kvs.lookup k).getD .null)
  | _ => .ok .null

/-- The `a2` item loop: for each item with `type == "image"`, push an
attachment built from the item's `mimeType`, `name` (defaulted to `"image"`
when falsy) and `image` members. -/
def pushA2Items (atts : List WireAttachment) :
    List JVal → Except JsErr (List WireAttachment)
  | [] => .ok atts
  | item :: rest => do
    let t ← jsField item "type"
    match t with
    | .str s =>
      if s = "image" then
        let mt ← jsField item "mimeType"
        let n ← jsField item "name"
        let u ← jsField item "image"
        pushA2Items
          (atts ++ [{ contentType := mt,
                      name := if jsTruthy n then n else .str "image",
                      url := u }]) rest
      else pushA2Items atts rest
    | _ => pushA2Items atts rest

/-- Payload characters after the first colon of a record line
(`line.indexOf(":")`; `none` models index `-1`). -/
def afterFirstColon : List Char → Option (List Char)
  | [] => none
  | ':' :: rest => some rest
  | _ :: rest => afterFirstColon rest

/-- `processLine` of `runInferenceV2` (src/lib/SessionManager.mjs:557):
records shorter than 4 characters are dropped; the first two characters are
the event code and the first colon delimits the JSON payload; a payload
decode failure drops the record; `a0` string payloads append to the active
placeholder's text, `a2` items add image attachments, `ad` marks the
placeholder successful; every decoded record is forwarded as an event.
Iterating `a2` data follows JS `for...of`: arrays iterate elements, strings
iterate characters (none of which carries `type == "image"`), everything
else raises a TypeError. -/
def processLine (msg : LMMessage) (line : List Char) :
    Except JsErr (LMMessage × Option StreamEvent) :=
  if line.length < 4 then .ok (msg, none)
  else
    match afterFirstColon line with
    | none => .ok (msg, none)
    | some payload =>
      let eventCode := String.mk (line.take 2)
      match jsonParseL payload with
      | none => .ok (msg, none)
      | some data =>
        if eventCode = "a0" then
          match data with
          | .str s =>
            .ok ({ msg with content := msg.content ++ s },
                 some { event := eventCode, data := data })
          | _ => .ok (msg, some { event := eventCode, data := data })
        else if eventCode = "a2" then
          match data with
          | .arr items => do
            let atts ← pushA2Items msg.experimental_attachments items
            .ok ({ msg with experimental_attachments := atts },
                 some { event := eventCode, data := data })
          | .str _ => .ok (msg, some { event := eventCode, data := data })
          | _ => .error .typeError
        else if eventCode = "ad" then
          .ok ({ msg with status := "success" },
               some { event := eventCode, data := data })
        else .ok (msg, some { event := eventCode, data := data })

/-- Cut an accumulated buffer into the complete (newline-terminated) lines
and the unterminated remainder, as the `indexOf("\n")` loop does. -/
def extractLines : List Char → List (List Char) × List Char
  | [] => ([], [])
  | c :: cs =>
    let (ls, r) := extractLines cs
    if c = '\n' then ([] :: ls, r)
    else
      match ls with
      | [] => ([], c :: r)
      | l :: ls1 => ((c :: l) :: ls1, r)

/-- `line.trim()` on a buffered line. -/
def trimChars (cs : List Char) : List Char :=
  ((cs.dropWhile isJsonWS).reverse.dropWhile isJsonWS).reverse

/-- Process a batch of complete lines: trim each, skip empties, stop at the
first raised error keeping the events already yielded. -/
def processLines (msg : LMMessage) :
    List (List Char) → LMMessage × List StreamEvent × Option JsErr
  | [] => (msg, [], none)
  | l :: rest =>
    let t := trimChars l
    if t = [] then processLines msg rest
    else
      match processLine msg t with
      | .error e => (msg, [], some e)
      | .ok (msg1, ev) =>
        let (msg2, evs, err) := processLines msg1 rest
        (msg2, ev.toList ++ evs, err)

/-- The decoder state: the active placeholder and the accumulating buffer. -/
structure StreamState where
  msg : LMMessage
  buffer : List Char
deriving Repr

/-- Feed one decoded chunk: append to the buffer, split off every complete
line and process it (src/lib/SessionManager.mjs:604-617). -/
def feedChunk (st : StreamState) (chunk : List Char) :
    StreamState × List StreamEvent × Option JsErr :=
  let (ls, r) := extractLines (st.buffer ++ chunk)
  let (msg1, evs, err) := processLines st.msg ls
  (⟨msg1, r⟩, evs, err)

/-- Feed a list of chunks in order, stopping at a raised error. -/
def feedChunks (st : StreamState) :
    List (List Char) → StreamState × List StreamEvent × Option JsErr
  | [] => (st, [], none)
  | c :: cs =>
    match feedChunk st c with
    | (st1, evs, some e) => (st1, evs, some e)
    | (st1, evs, none) =>
      let (st2, evs2, err) := feedChunks st1 cs
      (st2, evs ++ evs2, err)

/-- End of stream (src/lib/SessionManager.mjs:596-601): flush any trailing
unterminated buffer content as a final record, untrimmed. -/
def flushStream (st : StreamState) :
    LMMessage × List StreamEvent × Option JsErr :=
  if st.buffer = [] then (st.msg, [], none)
  else
    match processLine st.msg st.buffer with
    | .error e => (st.msg, [], some e)
    | .ok (msg1, ev) => (msg1, ev.toList, none)

/-- The full stream read loop of `runInferenceV2` over a chunked body:
reassemble via the accumulating buffer, then flush. -/
def runStream (msg : LMMessage) (chunks : List (List Char)) :
    LMMessage × List StreamEvent × Option JsErr :=
  match feedChunks ⟨msg, []⟩ chunks with
  | (st, evs, some e) => (st.msg, evs, some e)
  | (st, evs, none) =>
    let (msg1, evs2, err) := flushStream st
    (msg1, evs ++ evs2, err)

/-- A generic pending placeholder used by concrete checks. -/
def samplePlaceholder : LMMessage :=
  { id := "asst-1", role := "assistant", content := "",
    experimental_attachments := [], evaluationSessionId := "sess-1",
    modelId := some "model-1", parentMessageIds := ["user-1"],
    participantPosition := "a", status := "pending" }

example :
    runStream samplePlaceholder ["a0:\"hel".toList, "lo\"\n".toList] =
      ({ samplePlaceholder with content := "hello" },
       [{ event := "a0", data := .str "hello" }], none) := by rfl

example :
    runStream samplePlaceholder ["ad:\"done\"".toList] =
      ({ samplePlaceholder with status := "success" },
       [{ event := "ad", data := .str "done" }], none) := by rfl

/-! ## Chunk-boundary invariance of the stream read loop -/

theorem extractLines_nil_lines :
    ∀ x : List Char, (extractLines x).1 = [] → (extractLines x).2 = x := by
  intro x
  induction x with
  | nil => intro _; rfl
  | cons c cs ih =>
    intro h
    rcases hx : extractLines cs with ⟨ls, r⟩
    by_cases hc : c = '\n'
    · simp [extractLines, hx, hc] at h
    · cases ls with
      | nil =>
        have := ih (by simp [hx])
        simp [extractLines, hx, hc] at h ⊢
        simpa [hx] using this
      | cons l ls1 =>
        simp [extractLines, hx, hc] at h

theorem extractLines_append (x y : List Char) :
    extractLines (x ++ y) =
      ((extractLines x).1 ++ (extractLines ((extractLines x).2 ++ y)).1,
       (extractLines ((extractLines x).2 ++ y)).2) := by
  induction x with
  | nil => simp [extractLines]
  | cons c cs ih =>
    rcases hx : extractLines cs with ⟨ls, r⟩
    by_cases hc : c = '\n'
    · simp [extractLines, ih, hx, hc]
    · cases ls with
      | nil =>
        have hr : r = cs := by
          have := extractLines_nil_lines cs (by simp [hx])
          simpa [hx] using this
        subst hr
        simp [extractLines, hx, hc]
      | cons l ls1 =>
        rcases hy : extractLines (r ++ y) with ⟨ls2, r2⟩
        simp [extractLines, ih, hx, hc, hy]

theorem processLines_append (msg : LMMessage) (a b : List (List Char)) :
    processLines msg (a ++ b) =
      match processLines msg a with
      | (m1, e1, some e) => (m1, e1, some e)
      | (m1, e1, none) =>
        ((processLines m1 b).1, e1 ++ (processLines m1 b).2.1,
         (processLines m1 b).2.2) := by
  induction a generalizing msg with
  | nil => simp [processLines]
  | cons l rest ih =>
    by_cases ht : trimChars l = []
    · simp [processLines, ht, ih]
    · rcases hp : processLine msg (trimChars l) with e | ⟨msg1, ev⟩
      · simp [processLines, ht, hp]
      · rcases hr : processLines msg1 rest with ⟨m2, evs, err⟩
        cases err with
        | some e => simp [processLines, ht, hp, ih, hr]
        | none => simp [processLines, ht, hp, ih, hr]

/-- One step of the pairing argument: feeding two chunks in a row equals
feeding their concatenation, up to the final result of the read loop. -/
def runStreamFrom (st : StreamState) (chunks : List (List Char)) :
    LMMessage × List StreamEvent × Option JsErr :=
  match feedChunks st chunks with
  | (st1, evs, some e) => (st1.msg, evs, some e)
  | (st1, evs, none) =>
    let (msg1, evs2, err) := flushStream st1
    (msg1, evs ++ evs2, err)

theorem runStream_eq_from (msg : LMMessage) (chunks : List (List Char)) :
    runStream msg chunks = runStreamFrom ⟨msg, []⟩ chunks := by
  rfl

theorem runStreamFrom_pair (st : StreamState) (c1 c2 : List Char)
    (cs : List (List Char)) :
    runStreamFrom st (c1 :: c2 :: cs) = runStreamFrom st ((c1 ++ c2) :: cs) := by
  rcases h1 : extractLines (st.buffer ++ c1) with ⟨ls1, r1⟩
  rcases h2 : extractLines (r1 ++ c2) with ⟨ls2, r2⟩
  have hx : extractLines (st.buffer ++ (c1 ++ c2)) = (ls1 ++ ls2, r2) := by
    rw [← List.append_assoc, extractLines_append (st.buffer ++ c1) c2, h1]
    simp [h2]
  rcases hp1 : processLines st.msg ls1 with ⟨m1, e1, err1⟩
  cases err1 with
  | some e =>
    have hP : processLines st.msg (ls1 ++ ls2) = (m1, e1, some e) := by
      rw [processLines_append, hp1]
    simp [runStreamFrom, feedChunks, feedChunk, h1, hx, hp1, hP]
  | none =>
    rcases hp2 : processLines m1 ls2 with ⟨m2, e2, err2⟩
    have hP : processLines st.msg (ls1 ++ ls2) = (m2, e1 ++ e2, err2) := by
      rw [processLines_append, hp1]
      simp [hp2]
    cases err2 with
    | some e =>
      simp [runStreamFrom, feedChunks, feedChunk, h1, h2, hx, hp1, hp2, hP]
    | none =>
      rcases hf : feedChunks ⟨m2, r2⟩ cs with ⟨st3, evs3, err3⟩
      cases err3 <;>
        simp [runStreamFrom, feedChunks, feedChunk, h1, h2, hx, hp1, hp2, hP,
          hf, List.append_assoc]

theorem runStreamFrom_join :
    ∀ (cs : List (List Char)) (c : List Char) (st : StreamState),
      runStreamFrom st (c :: cs) = runStreamFrom st [c ++ cs.flatten] := by
  intro cs
  induction cs with
  | nil => intro c st; simp
  | cons c2 cs1 ih =>
    intro c st
    rw [runStreamFrom_pair, ih]
    simp [List.append_assoc]

/-- The read loop is invariant under how the stream text is cut into chunks:
any chunking decodes exactly as the whole text fed at once. -/
theorem runStream_chunking (msg : LMMessage) (chunks : List (List Char)) :
    runStream msg chunks = runStream msg [chunks.flatten] := by
  cases chunks with
  | nil => rfl
  | cons c cs =>
    rw [runStream_eq_from, runStream_eq_from, List.flatten_cons, runStreamFrom_join]

/-! ## Session state machine (src/lib/SessionManager.mjs) -/

/-- A display-message attachment (types/lmarena `Attachment`): raw bytes and
mime type, or an already hosted R2 object. -/
structure Attachment where
  mime : String
  content : List Nat
  r2Key : Option String
  r2BucketUrl : Option String
deriving Repr

/-- A display message (`ChatMessage` of the source typedefs); `id` and
`attachments` may be absent before `sendMessage` defaults them. -/
structure ChatMessage where
  role : String
  content : String
  attachments : Option (List Attachment)
  id : Option String
deriving Repr

/-- The session object sent to the API (`LMArenaSession`).  The message
array is a list of optional entries: `none` is the hole that the JS
`delete` operator leaves behind in the retry-removal step. -/
structure LMSession where
  id : String
  messages : List (Option LMMessage)
  modality : String
  mode : String
  modelAId : String
  modelAMessageId : String
  userMessageId : String
deriving Repr

/-- The manager-facing session (`ChatSession`): the wire session, the
`exists` flag, the stable identifier and the display history. -/
structure ChatSession where
  lmSession : LMSession
  doesSessionExist : Bool
  sessionId : String
  messages : List ChatMessage
deriving Repr

/-- `createSession` (src/lib/SessionManager.mjs:37): fresh identifier, empty
graphs, `exists = false`.  The fresh UUID is passed in explicitly. -/
def createSession (modelAId chatModality sessionId : String) : ChatSession :=
  { lmSession :=
      { id := sessionId, messages := [], modality := chatModality,
        mode := "direct", modelAId := modelAId, modelAMessageId := "",
        userMessageId := "" },
    doesSessionExist := false,
    sessionId := sessionId,
    messages := [] }

/-- `Chat.shuffleSession` (orchestrator): fresh identifier on both session
objects and `exists` reset to false. -/
def shuffleSession (s : ChatSession) (freshId : String) : ChatSession :=
  { s with sessionId := freshId,
           lmSession := { s.lmSession with id := freshId },
           doesSessionExist := false }

/-- `convertChatMessageToLMMessage` (src/lib/SessionManager.mjs:216): build
the wire message for a display message; already-hosted attachments keep
their URL (name may be the null `r2Key`), pending ones are resolved through
the upload collaborator, modelled by the pure `upload` argument returning
`(url, key)`. -/
def convertChatMessageToLMMessage (upload : Attachment → String × String)
    (s : ChatSession) (cm : ChatMessage) : LMMessage :=
  { id := cm.id.getD "",
    role := cm.role,
    content := cm.content,
    experimental_attachments :=
      (cm.attachments.getD []).map (fun att =>
        match att.r2BucketUrl with
        | some u =>
          { contentType := .str att.mime,
            name := match att.r2Key with
                    | some k => .str k
                    | none => .null,
            url := .str u }
        | none =>
          { contentType := .str att.mime,
            name := .str (upload att).2,
            url := .str (upload att).1 }),
    evaluationSessionId := s.sessionId,
    modelId := none,
    parentMessageIds := [],
    participantPosition := "a",
    status := "pending" }

/-- `addFillerAssistantMessage` (src/lib/SessionManager.mjs:659): the empty
assistant placeholder paired with a user message. -/
def addFillerAssistantMessage (s : ChatSession)
    (replyingToId assistantMessageId : String) : LMMessage :=
  { id := assistantMessageId,
    content := "",
    evaluationSessionId := s.sessionId,
    role := "assistant",
    modelId := some s.lmSession.modelAId,
    parentMessageIds := [replyingToId],
    participantPosition := "a",
    status := "pending",
    experimental_attachments := [] }

/-- `sendMessage` (src/lib/SessionManager.mjs:624): default the id and
attachments, link the wire message to the previous wire entry, append to
display history and wire graph; a user message additionally appends the
paired assistant placeholder and updates the active-turn identifiers.  The
two fresh UUIDs are passed in explicitly. -/
def sendMessage (upload : Attachment → String × String) (s : ChatSession)
    (message : ChatMessage) (freshMessageId freshAssistantId : String) :
    ChatSession :=
  let message :=
    { message with
        id := some (message.id.getD freshMessageId),
        attachments := some (message.attachments.getD []) }
  let parentIds :=
    match s.lmSession.messages.getLast? with
    | some (some lastMessage) => [lastMessage.id]
    | _ => []
  let lmMessage :=
    { convertChatMessageToLMMessage upload s message with
        parentMessageIds := parentIds }
  let s :=
    { s with
        messages := s.messages ++ [message],
        lmSession :=
          { s.lmSession with
              messages := s.lmSession.messages ++ [some lmMessage] } }
  if message.role = "user" then
    let filler :=
      addFillerAssistantMessage s (message.id.getD "") freshAssistantId
    { s with
        lmSession :=
          { s.lmSession with
              messages := s.lmSession.messages ++ [some filler],
              userMessageId := message.id.getD "",
              modelAMessageId := freshAssistantId } }
  else s

/-- `String.prototype.toLowerCase`, ASCII range (session ids are UUIDs). -/
def jsToLower (s : String) : String := String.mk (s.toList.map Char.toLower)

/-- The retry-removal step inlined in both turn drivers
(src/lib/SessionManager.mjs:267 and 462): for every wire entry whose id
matches the current assistant-placeholder id case-insensitively, the JS
`delete` operator replaces the array slot with a hole.  Display history is
not touched. -/
def beginRetry (s : ChatSession) : ChatSession :=
  let assistantId := s.lmSession.modelAMessageId
  { s with
      lmSession :=
        { s.lmSession with
            messages := s.lmSession.messages.map (fun entry =>
              match entry with
              | some m =>
                if jsToLower m.id = jsToLower assistantId then none
                else some m
              | none => none) } }

/-! ## Turn drivers (orchestrator, src/lib/SessionManager.mjs) -/

/-- `messages.find((msg) => msg.id && msg.id === targetId)` over a JS array
that may contain holes: `find` visits every index, a hole hands `undefined`
to the predicate, and `msg.id` on `undefined` raises a TypeError.  An empty
id is falsy and never matches. -/
def findByIdGuarded (msgs : List (Option LMMessage)) (targetId : String) :
    Except JsErr (Option LMMessage) :=
  match msgs with
  | [] => .ok none
  | none :: _ => .error .typeError
  | some m :: rest =>
    if m.id ≠ "" ∧ m.id = targetId then .ok (some m)
    else findByIdGuarded rest targetId

/-- `messages.find(m => m.id === targetId)` (the `currentUserMsg` lookup of
`runInferenceV2`): same hole behaviour, but no truthiness guard on the id. -/
def findByIdExact (msgs : List (Option LMMessage)) (targetId : String) :
    Except JsErr (Option LMMessage) :=
  match msgs with
  | [] => .ok none
  | none :: _ => .error .typeError
  | some m :: rest =>
    if m.id = targetId then .ok (some m) else findByIdExact rest targetId

/-- Write the streamed placeholder back into the wire graph: the source
mutates the found object in place, so the model replaces the first entry the
guarded lookup would have returned. -/
def updateFoundMessage (msgs : List (Option LMMessage)) (targetId : String)
    (newMsg : LMMessage) : List (Option LMMessage) :=
  match msgs with
  | [] => []
  | none :: rest => none :: updateFoundMessage rest targetId newMsg
  | some m :: rest =>
    if m.id ≠ "" ∧ m.id = targetId then some newMsg :: rest
    else some m :: updateFoundMessage rest targetId newMsg

/-- The response the transport bridge hands back: status, headers (lowercase
names, as `fetch` normalizes them), the error body text and the streamed
body chunks. -/
structure RespInfo where
  status : Nat
  headers : List (String × String)
  errorText : String
  chunks : List (List Char)
deriving Repr

/-- `Response.ok`: status in the 200-299 range. -/
def respOk (r : RespInfo) : Bool := 200 ≤ r.status ∧ r.status < 300

/-- `response.headers.has(name) && response.headers.get(name) === value`. -/
def headerIs (r : RespInfo) (name value : String) : Bool :=
  match r.headers.lookup name with
  | some v => v = value
  | none => false

/-- The result value of `updateArenaAuth` (orchestrator): every return path
yields a three-element array `[success, clearanceOrNull, bodyText]`. -/
def updateArenaAuthReturn (success : Bool) (clearance : Option String)
    (body : String) : JVal :=
  .arr [.bool success,
        (match clearance with | some c => .str c | none => .null),
        .str body]

/-- The ToS rejection text synthesized on a 422. -/
def tosMessage : String :=
  "Error: Prompt violates [LMArena ToS](https://lmarena.ai/terms-of-use)"

/-- The retry notice synthesized after a successful auth refresh. -/
def retryNotice : String :=
  "Anonymous image ratelimit reached, got new session. Try again."

/-- The failure notice synthesized after a failed auth refresh. -/
def refreshFailedNotice : String :=
  "Anonymous image ratelimit reached, but could not refresh token."

/-- Template stringification of `jBody.error` for the error-body branch:
`undefined` (missing member) prints as "undefined"; nested arrays are
approximated (no claim exercises them). -/
def displayErrorField (body : JVal) : String :=
  match body with
  | .obj kvs =>
    match kvs.lookup "error" with
    | some (.str s) => s
    | some (.num lit) => lit
    | some (.bool b) => if b then "true" else "false"
    | some .null => "null"
    | some (.obj _) => "[object Object]"
    | some (.arr _) => "(array)"
    | none => "undefined"
  | _ => "undefined"

/-- `errorText.startsWith('\x7b"error":')`. -/
def looksLikeErrorBody (errorText : String) : Bool :=
  errorText.startsWith (String.mk (lbraceChar :: "\"error\":".toList))

/-- The non-success branch of `runInferenceV2` (src/lib/SessionManager.mjs:
489-527).  422 synthesizes the ToS `c0` plus terminal `ad`/err; 429 with the
image ratelimit header consults `updateArenaAuth` — the source tests the
truthiness of the returned array (`if (couldUpdateAuth)`), so `authRet`
feeds `jsTruthy`; other statuses with an `\x7b"error": ...` body surface the
parsed message; everything else stops silently. -/
def errorBranchV2 (s : ChatSession) (resp : RespInfo) (authRet : JVal) :
    ChatSession × List StreamEvent × Option JsErr :=
  if resp.status = 422 then
    (s, [{ event := "c0", data := .str tosMessage },
         { event := "ad", data := .str "err" }], none)
  else if resp.status = 429 then
    if headerIs resp "ratelimit-modality" "image" then
      if jsTruthy authRet then
        (s, [{ event := "a0", data := .str retryNotice },
             { event := "ad", data := .str "retry" }], none)
      else
        (s, [{ event := "a0", data := .str refreshFailedNotice },
             { event := "ad", data := .str "err" }], none)
    else (s, [], none)
  else if looksLikeErrorBody resp.errorText then
    match jsonParse resp.errorText with
    | some jBody =>
      (s, [{ event := "a0", data := .str ("Error: " ++ displayErrorField jBody) },
           { event := "ad", data := .str "err" }], none)
    | none => (s, [], some .syntaxError)
  else (s, [], none)

/-- The lazily created placeholder of `runInferenceV2` (lines 541-550). -/
def lazyPlaceholder (s : ChatSession) : LMMessage :=
  { id := s.lmSession.modelAMessageId,
    role := "assistant",
    content := "",
    experimental_attachments := [],
    status := "pending",
    evaluationSessionId := "",
    modelId := none,
    parentMessageIds := [],
    participantPosition := "a" }

/-- `runInferenceV2` (src/lib/SessionManager.mjs:418) for one response,
without message overrides.  In source order: the `currentUserMsg` lookup
(payload construction), the retry-removal step, the non-success branches,
then on success the `exists` promotion, the find-or-create of the
placeholder and the stream read loop, whose final placeholder state is
written back into the wire graph.  Returns the mutated session, the events
yielded, and the JS error raised, if any. -/
def runInferenceV2 (s : ChatSession) (retry : Bool) (resp : RespInfo)
    (authRet : JVal) : ChatSession × List StreamEvent × Option JsErr :=
  match findByIdExact s.lmSession.messages s.lmSession.userMessageId with
  | .error e => (s, [], some e)
  | .ok _ =>
    let s := if retry then beginRetry s else s
    if respOk resp then
      let s := { s with doesSessionExist := true }
      match findByIdGuarded s.lmSession.messages s.lmSession.modelAMessageId with
      | .error e => (s, [], some e)
      | .ok (some found) =>
        let (finalMsg, evs, err) := runStream found resp.chunks
        ({ s with
             lmSession :=
               { s.lmSession with
                   messages := updateFoundMessage s.lmSession.messages
                     s.lmSession.modelAMessageId finalMsg } },
         evs, err)
      | .ok none =>
        let (finalMsg, evs, err) := runStream (lazyPlaceholder s) resp.chunks
        ({ s with
             lmSession :=
               { s.lmSession with
                   messages := s.lmSession.messages ++ [some finalMsg] } },
         evs, err)
    else errorBranchV2 s resp authRet

/-! ## Legacy turn driver `runInference` (src/lib/SessionManager.mjs:250) -/

/-- The non-success branch of the legacy `runInference`: identical to the
revised one except that 422 first runs `JSON.parse(errorText)`, which raises
on a non-JSON body. -/
def errorBranchV1 (s : ChatSession) (resp : RespInfo) (authRet : JVal) :
    ChatSession × List StreamEvent × Option JsErr :=
  if resp.status = 422 then
    match jsonParse resp.errorText with
    | some _ =>
      (s, [{ event := "c0", data := .str tosMessage },
           { event := "ad", data := .str "err" }], none)
    | none => (s, [], some .syntaxError)
  else if resp.status = 429 then
    if headerIs resp "ratelimit-modality" "image" then
      if jsTruthy authRet then
        (s, [{ event := "a0", data := .str retryNotice },
             { event := "ad", data := .str "retry" }], none)
      else
        (s, [{ event := "a0", data := .str refreshFailedNotice },
             { event := "ad", data := .str "err" }], none)
    else (s, [], none)
  else if looksLikeErrorBody resp.errorText then
    match jsonParse resp.errorText with
    | some jBody =>
      (s, [{ event := "a0", data := .str ("Error: " ++ displayErrorField jBody) },
           { event := "ad", data := .str "err" }], none)
    | none => (s, [], some .syntaxError)
  else (s, [], none)

/-- The `a2` item walk when the placeholder is `undefined`: reading
`item.type` on a null item raises, and reaching an image item raises at the
attachment push on the undefined placeholder. -/
def a2ItemsUndef : List JVal → Except JsErr Unit
  | [] => .ok ()
  | item :: rest => do
    let t ← jsField item "type"
    match t with
    | .str sv => if sv = "image" then .error .typeError else a2ItemsUndef rest
    | _ => a2ItemsUndef rest

/-- `processLine` of the legacy driver when the placeholder lookup returned
`undefined`: any record that mutates the placeholder (`a0` string payloads,
`a2` image items, `ad`) dereferences `undefined` and raises a TypeError;
records that do not touch it are still decoded and forwarded. -/
def processLineUndef (line : List Char) : Except JsErr (Option StreamEvent) :=
  if line.length < 4 then .ok none
  else
    match afterFirstColon line with
    | none => .ok none
    | some payload =>
      let eventCode := String.mk (line.take 2)
      match jsonParseL payload with
      | none => .ok none
      | some data =>
        if eventCode = "a0" then
          match data with
          | .str _ => .error .typeError
          | _ => .ok (some { event := eventCode, data := data })
        else if eventCode = "a2" then
          match data with
          | .arr items => do
            let _ ← a2ItemsUndef items
            .ok (some { event := eventCode, data := data })
          | .str _ => .ok (some { event := eventCode, data := data })
          | _ => .error .typeError
        else if eventCode = "ad" then .error .typeError
        else .ok (some { event := eventCode, data := data })

/-- Line batch processing for the undefined-placeholder path. -/
def processLinesUndef : List (List Char) → List StreamEvent × Option JsErr
  | [] => ([], none)
  | l :: rest =>
    let t := trimChars l
    if t = [] then processLinesUndef rest
    else
      match processLineUndef t with
      | .error e => ([], some e)
      | .ok ev =>
        let (evs, err) := processLinesUndef rest
        (ev.toList ++ evs, err)

/-- The buffered read loop for the undefined-placeholder path. -/
def feedChunksUndef (buffer : List Char) :
    List (List Char) → List Char × List StreamEvent × Option JsErr
  | [] => (buffer, [], none)
  | c :: cs =>
    let (ls, r) := extractLines (buffer ++ c)
    match processLinesUndef ls with
    | (evs, some e) => (r, evs, some e)
    | (evs, none) =>
      let (r2, evs2, err) := feedChunksUndef r cs
      (r2, evs ++ evs2, err)

/-- The full read loop (buffering plus final flush) for the
undefined-placeholder path. -/
def runStreamUndef (chunks : List (List Char)) :
    List StreamEvent × Option JsErr :=
  match feedChunksUndef [] chunks with
  | (_, evs, some e) => (evs, some e)
  | (buffer, evs, none) =>
    if buffer = [] then (evs, none)
    else
      match processLineUndef buffer with
      | .error e => (evs, some e)
      | .ok ev => (evs ++ ev.toList, none)

/-- The legacy `runInference` (src/lib/SessionManager.mjs:250) for one
response, without message overrides.  The wire payload is the whole
`lmSession` snapshot, so there is no `currentUserMsg` lookup; the retry
step, error branches, `exists` promotion and placeholder lookup mirror the
source; there is no lazy placeholder creation — when the lookup returns
`undefined` the stream is decoded against an undefined placeholder. -/
def runInference (s : ChatSession) (retry : Bool) (resp : RespInfo)
    (authRet : JVal) : ChatSession × List StreamEvent × Option JsErr :=
  let s := if retry then beginRetry s else s
  if respOk resp then
    let s := { s with doesSessionExist := true }
    match findByIdGuarded s.lmSession.messages s.lmSession.modelAMessageId with
    | .error e => (s, [], some e)
    | .ok (some found) =>
      let (finalMsg, evs, err) := runStream found resp.chunks
      ({ s with
           lmSession :=
             { s.lmSession with
                 messages := updateFoundMessage s.lmSession.messages
                   s.lmSession.modelAMessageId finalMsg } },
       evs, err)
    | .ok none =>
      let (evs, err) := runStreamUndef resp.chunks
      (s, evs, err)
  else errorBranchV1 s resp authRet

/-! ## Claim theorems -/

/-- C5: resolving a record mapping at the root replaces every string exactly
matching `$@<digits>` by the recursive resolution of the referenced id,
resolves a missing reference to null, resolves arrays and objects
element-wise preserving structure, passes other scalars through unchanged,
and on the two concrete inputs of the claim produces `"hello"` and
`\x7b"a": null\x7d`. -/
theorem c5_dereference_resolution :
    (∀ (m : List (String × JVal)) (fuel : Nat) (st refId : String) (v : JVal),
        parseRef st = some refId → mapGet m refId = some v →
        dereference m (fuel + 1) (.str st) = dereference m fuel v)
  ∧ (∀ (m : List (String × JVal)) (fuel : Nat) (st refId : String),
        parseRef st = some refId → mapGet m refId = none →
        dereference m (fuel + 1) (.str st) = .null)
  ∧ (∀ (m : List (String × JVal)) (fuel : Nat) (xs : List JVal),
        dereference m (fuel + 1) (.arr xs) = .arr (xs.map (dereference m fuel)))
  ∧ (∀ (m : List (String × JVal)) (fuel : Nat) (kvs : List (String × JVal)),
        dereference m (fuel + 1) (.obj kvs) =
          .obj (kvs.map (fun kv => (kv.1, dereference m fuel kv.2))))
  ∧ (∀ (m : List (String × JVal)) (fuel : Nat) (st : String),
        parseRef st = none → dereference m (fuel + 1) (.str st) = .str st)
  ∧ (∀ (m : List (String × JVal)) (fuel : Nat) (b : Bool),
        dereference m (fuel + 1) (.bool b) = .bool b)
  ∧ (∀ (m : List (String × JVal)) (fuel : Nat),
        dereference m (fuel + 1) .null = .null)
  ∧ (∀ (m : List (String × JVal)) (fuel : Nat) (lit : String),
        dereference m (fuel + 1) (.num lit) = .num lit)
  ∧ parseAndDereference "0:\"$@1\"\n1:\"hello\"" = .ok (.str "hello")
  ∧ parseAndDereference "0:\x7b\"a\":\"$@1\"\x7d" = .ok (.obj [("a", .null)]) := by
  refine ⟨?_, ?_, ?_, ?_, ?_, ?_, ?_, ?_, ?_, ?_⟩
  · intro m fuel st refId v href hget
    simp [dereference, href, hget]
  · intro m fuel st refId href hget
    simp [dereference, href, hget]
  · intro m fuel xs; rfl
  · intro m fuel kvs; rfl
  · intro m fuel st href; simp [dereference, href]
  · intro m fuel b; rfl
  · intro m fuel; rfl
  · intro m fuel lit; rfl
  · rfl
  · rfl

/-- C5 witness: the theorem applied at a concrete mapping, discharging the
pattern and lookup hypotheses there. -/
theorem c5_dereference_resolution_witness :
    dereference [("1", .str "hello")] 3 (.str "$@1") =
      dereference [("1", .str "hello")] 2 (.str "hello")
  ∧ dereference [("1", .str "hello")] 3 (.str "$@7") = .null
  ∧ dereference [("1", .str "hello")] 3 (.str "plain") = .str "plain" := by
  exact ⟨c5_dereference_resolution.1 _ 2 "$@1" "1" _ rfl rfl,
         c5_dereference_resolution.2.1 _ 2 "$@7" "7" rfl rfl,
         c5_dereference_resolution.2.2.2.2.1 _ 2 "plain" rfl⟩

/-- C6: the decoder's line loop skips a line without a colon (continuing
without failing), skips a line whose payload does not open an object, array
or string, fails on a JSON decode failure of a remaining data line with an
error naming the offending id and raw payload, and the whole decoder fails
with the root-missing error when no record with id "0" exists. -/
theorem c6_line_error_handling :
    (∀ (line : String) (rest : List String) (m : List (String × JVal)),
        splitAtColon line = none →
        buildDataMap (line :: rest) m = buildDataMap rest m)
  ∧ (∀ (line id content : String) (rest : List String)
        (m : List (String × JVal)),
        line ≠ "" → splitAtColon line = some (id, content) →
        isDataPayload content = false →
        buildDataMap (line :: rest) m = buildDataMap rest m)
  ∧ (∀ (line id content : String) (rest : List String)
        (m : List (String × JVal)),
        line ≠ "" → splitAtColon line = some (id, content) →
        isDataPayload content = true → jsonParse content = none →
        buildDataMap (line :: rest) m = .error (.decodeFail id content))
  ∧ (∀ (text : String) (m : List (String × JVal)),
        text ≠ "" →
        buildDataMap (splitNewlines (jsTrim text)) [] = .ok m →
        mapGet m "0" = none →
        parseAndDereference text = .error .rootMissing) := by
  refine ⟨?_, ?_, ?_, ?_⟩
  · intro line rest m hsplit
    by_cases hline : line = ""
    · simp [buildDataMap, hline]
    · simp [buildDataMap, hline, hsplit]
  · intro line id content rest m hline hsplit hchar
    simp [buildDataMap, hline, hsplit, hchar]
  · intro line id content rest m hline hsplit hchar hparse
    simp [buildDataMap, hline, hsplit, hchar, hparse]
  · intro text m htext hbuild hroot
    simp [parseAndDereference, htext, hbuild, hroot]

/-- C6 witness: the theorem applied to concrete lines and a concrete
root-missing input. -/
theorem c6_line_error_handling_witness :
    buildDataMap ["nocolon", "0:\"x\""] [] = buildDataMap ["0:\"x\""] []
  ∧ buildDataMap ["7:I=instruction", "0:\"x\""] [] = buildDataMap ["0:\"x\""] []
  ∧ buildDataMap ["0:\x7bbad", "1:\"y\""] [] = .error (.decodeFail "0" "\x7bbad")
  ∧ parseAndDereference "1:\"hello\"" = .error .rootMissing := by
  refine ⟨?_, ?_, ?_, ?_⟩
  · exact c6_line_error_handling.1 "nocolon" _ [] rfl
  · exact c6_line_error_handling.2.1 "7:I=instruction" "7" "I=instruction" _ []
      (by decide) rfl rfl
  · exact c6_line_error_handling.2.2.1 "0:\x7bbad" "0" "\x7bbad" _ []
      (by decide) rfl rfl rfl
  · exact c6_line_error_handling.2.2.2 "1:\"hello\"" [("1", .str "hello")]
      (by decide) rfl rfl

/-- C7: the stream decoder is invariant under how the stream text is cut
into chunks (records are reassembled via the accumulating buffer and split
only on newline boundaries, with trailing content flushed at end of
stream); records shorter than 4 characters are dropped; the two-chunk split
of `a0:"hello"\n` yields exactly one `a0` event with data "hello", and a
stream ending without a trailing newline after `ad:"done"` still yields the
`ad` event. -/
theorem c7_chunk_reassembly :
    (∀ (msg : LMMessage) (chunks : List (List Char)),
        runStream msg chunks = runStream msg [chunks.flatten])
  ∧ (∀ (msg : LMMessage) (line : List Char),
        line.length < 4 → processLine msg line = .ok (msg, none))
  ∧ runStream samplePlaceholder ["a0:\"hel".toList, "lo\"\n".toList] =
      ({ samplePlaceholder with content := "hello" },
       [{ event := "a0", data := .str "hello" }], none)
  ∧ runStream samplePlaceholder ["ad:\"done\"".toList] =
      ({ samplePlaceholder with status := "success" },
       [{ event := "ad", data := .str "done" }], none) := by
  refine ⟨runStream_chunking, ?_, rfl, rfl⟩
  intro msg line hshort
  simp [processLine, hshort]

/-- C7 witness: the theorem applied to a concrete chunking and a concrete
short record. -/
theorem c7_chunk_reassembly_witness :
    runStream samplePlaceholder ["a0:\"he".toList, "llo\"\nad".toList, ":\"done\"".toList]
      = runStream samplePlaceholder
          [(["a0:\"he".toList, "llo\"\nad".toList, ":\"done\"".toList]).flatten]
  ∧ processLine samplePlaceholder "a0:".toList = .ok (samplePlaceholder, none) := by
  exact ⟨c7_chunk_reassembly.1 samplePlaceholder _,
         c7_chunk_reassembly.2.1 samplePlaceholder _ (by decide)⟩

/-- C4 counterexample: a decoded `c0` record with string payload "y" leaves
the placeholder's text unchanged ("x" stays "x"), while the claim requires
the same append effect as `a0` ("x" ++ "y"). -/
theorem c4_c0_append_counterexample :
    processLine { samplePlaceholder with content := "x" } "c0:\"y\"".toList =
      .ok ({ samplePlaceholder with content := "x" },
           some { event := "c0", data := .str "y" })
  ∧ ("x" : String) ≠ "x" ++ "y" := by
  exact ⟨rfl, by decide⟩

/-- C4 amended: a decoded `c0` record with a string payload is forwarded to
the caller as a distinct `c0` event carrying the decoded payload, but the
decoder does not touch the active placeholder (only `a0` appends). -/
theorem c4_c0_forwarded_without_append :
    ∀ (msg : LMMessage) (p : List Char) (s : String),
      p ≠ [] → jsonParseL p = some (.str s) →
      processLine msg ('c' :: '0' :: ':' :: p) =
        .ok (msg, some { event := "c0", data := .str s }) := by
  intro msg p s hp hparse
  have hp1 : 0 < p.length := List.length_pos.mpr hp
  have hlen : ¬ ('c' :: '0' :: ':' :: p).length < 4 := by
    simp only [List.length_cons]
    omega
  simp [processLine, hlen, afterFirstColon, hparse]
  omega

/-- C4 witness: the amended theorem applied at a concrete record. -/
theorem c4_c0_forwarded_without_append_witness :
    processLine samplePlaceholder ('c' :: '0' :: ':' :: "\"y\"".toList) =
      .ok (samplePlaceholder, some { event := "c0", data := .str "y" }) := by
  exact c4_c0_forwarded_without_append samplePlaceholder "\"y\"".toList "y"
    (by decide) rfl

/-- A trivial upload collaborator for concrete checks. -/
def uploadNone : Attachment → String × String := fun _ => ("", "")

/-- A concrete session holding one user message and its paired assistant
placeholder. -/
def session1 : ChatSession :=
  sendMessage uploadNone (createSession "model-1" "chat" "sess-1")
    { role := "user", content := "hi", attachments := none, id := none }
    "user-1" "asst-1"

/-- C3: appending a user message appends exactly the user wire message and
one new assistant placeholder with status pending, parented to the user
message's identifier, and the session's active-turn identifiers point at the
user message and the placeholder. -/
theorem c3_user_message_pairs_placeholder :
    ∀ (upload : Attachment → String × String) (s : ChatSession)
      (message : ChatMessage) (freshMessageId freshAssistantId : String),
      message.role = "user" →
      ∃ userWire filler : LMMessage,
        (sendMessage upload s message freshMessageId freshAssistantId).lmSession.messages
            = s.lmSession.messages ++ [some userWire, some filler]
        ∧ userWire.id = message.id.getD freshMessageId
        ∧ userWire.role = "user"
        ∧ filler.role = "assistant"
        ∧ filler.status = "pending"
        ∧ filler.content = ""
        ∧ filler.parentMessageIds = [message.id.getD freshMessageId]
        ∧ filler.id = freshAssistantId
        ∧ [userWire, filler].filter (fun mm => mm.role == "assistant") = [filler]
        ∧ (sendMessage upload s message freshMessageId freshAssistantId).lmSession.modelAMessageId
            = filler.id
        ∧ (sendMessage upload s message freshMessageId freshAssistantId).lmSession.userMessageId
            = message.id.getD freshMessageId := by
  intro upload s message freshMessageId freshAssistantId hrole
  refine
    ⟨{ convertChatMessageToLMMessage upload s
          { message with id := some (message.id.getD freshMessageId),
                         attachments := some (message.attachments.getD []) } with
        parentMessageIds :=
          match s.lmSession.messages.getLast? with
          | some (some lastMessage) => [lastMessage.id]
          | _ => [] },
      { id := freshAssistantId, content := "",
        evaluationSessionId := s.sessionId, role := "assistant",
        modelId := some s.lmSession.modelAId,
        parentMessageIds := [message.id.getD freshMessageId],
        participantPosition := "a", status := "pending",
        experimental_attachments := [] },
      ?_, ?_, ?_, ?_, ?_, ?_, ?_, ?_, ?_, ?_, ?_⟩ <;>
    simp [sendMessage, hrole, convertChatMessageToLMMessage,
      addFillerAssistantMessage]

/-- C3 witness: the theorem applied to a fresh session and a concrete user
message with no preset identifier. -/
theorem c3_user_message_pairs_placeholder_witness :
    ∃ userWire filler : LMMessage,
      session1.lmSession.messages = [some userWire, some filler]
      ∧ userWire.id = "user-1" ∧ userWire.role = "user"
      ∧ filler.role = "assistant" ∧ filler.status = "pending"
      ∧ filler.content = ""
      ∧ filler.parentMessageIds = ["user-1"] ∧ filler.id = "asst-1"
      ∧ [userWire, filler].filter (fun mm => mm.role == "assistant") = [filler]
      ∧ session1.lmSession.modelAMessageId = filler.id
      ∧ session1.lmSession.userMessageId = "user-1" := by
  have h := c3_user_message_pairs_placeholder uploadNone
    (createSession "model-1" "chat" "sess-1")
    { role := "user", content := "hi", attachments := none, id := none }
    "user-1" "asst-1" rfl
  simpa [session1] using h

/-- C8: after the retry-removal step, the wire graph holds no message whose
identifier equals the pre-retry assistant-placeholder identifier, and the
display-message history is unchanged. -/
theorem c8_retry_removes_placeholder :
    ∀ s : ChatSession,
      (∀ m : LMMessage, some m ∈ (beginRetry s).lmSession.messages →
        m.id ≠ s.lmSession.modelAMessageId)
      ∧ (beginRetry s).messages = s.messages := by
  intro s
  refine ⟨?_, rfl⟩
  intro m hm heq
  simp only [beginRetry, List.mem_map] at hm
  obtain ⟨entry, hin, hmap⟩ := hm
  cases entry with
  | none => simp at hmap
  | some m0 =>
    by_cases hl : jsToLower m0.id = jsToLower s.lmSession.modelAMessageId
    · simp [hl] at hmap
    · simp [hl] at hmap
      exact hl (by rw [hmap, heq])

/-- C8 witness: the theorem applied to the concrete one-turn session, whose
assistant-placeholder identifier is "asst-1". -/
theorem c8_retry_removes_placeholder_witness :
    (∀ m : LMMessage, some m ∈ (beginRetry session1).lmSession.messages →
      m.id ≠ "asst-1")
    ∧ (beginRetry session1).messages = session1.messages :=
  c8_retry_removes_placeholder session1

/-- On a hole-free wire graph the exact-id lookup never raises. -/
theorem findByIdExact_allSome (msgs : List (Option LMMessage)) (t : String)
    (h : ∀ e ∈ msgs, e.isSome) :
    ∃ r, findByIdExact msgs t = .ok r := by
  induction msgs with
  | nil => exact ⟨none, rfl⟩
  | cons e rest ih =>
    cases e with
    | none => simpa using h none (by simp)
    | some m =>
      by_cases hid : m.id = t
      · exact ⟨some m, by simp [findByIdExact, hid]⟩
      · obtain ⟨r, hr⟩ := ih (fun e he => h e (by simp [he]))
        exact ⟨r, by simp [findByIdExact, hid, hr]⟩

/-- Every wire message surviving the retry-removal step was already in the
wire graph, unchanged. -/
theorem beginRetry_mem (s : ChatSession) (m : LMMessage)
    (hm : some m ∈ (beginRetry s).lmSession.messages) :
    some m ∈ s.lmSession.messages := by
  simp only [beginRetry, List.mem_map] at hm
  obtain ⟨entry, hin, hmap⟩ := hm
  cases entry with
  | none => simp at hmap
  | some m0 =>
    by_cases hl : jsToLower m0.id = jsToLower s.lmSession.modelAMessageId
    · simp [hl] at hmap
    · simp [hl] at hmap
      rwa [hmap] at hin

/-- C2: a turn whose response has status 422 yields exactly the `c0` ToS
event followed by the terminal `ad`/err event and then ends without raising;
the wire graph is left as the pre-request state (only the retry removal, on
a retry turn), so every surviving wire message — in particular the pending
assistant placeholder — keeps the status it already had and is never marked
successful. -/
theorem c2_status_422_yields_c0_then_ad_err :
    ∀ (s : ChatSession) (retry : Bool) (resp : RespInfo) (authRet : JVal),
      (∀ e ∈ s.lmSession.messages, e.isSome) →
      resp.status = 422 →
      runInferenceV2 s retry resp authRet =
        (if retry then beginRetry s else s,
         [{ event := "c0", data := .str tosMessage },
          { event := "ad", data := .str "err" }], none)
      ∧ ∀ m : LMMessage,
          some m ∈ (if retry then beginRetry s else s).lmSession.messages →
          some m ∈ s.lmSession.messages := by
  intro s retry resp authRet hall h422
  have hok : respOk resp = false := by simp [respOk, h422]
  obtain ⟨r, hr⟩ := findByIdExact_allSome s.lmSession.messages
    s.lmSession.userMessageId hall
  constructor
  · simp [runInferenceV2, hr, hok, errorBranchV2, h422]
  · intro m hm
    cases retry with
    | false => simpa using hm
    | true => exact beginRetry_mem s m (by simpa using hm)

/-- C2 witness: the theorem applied to the concrete one-turn session and a
concrete 422 response. -/
theorem c2_status_422_witness :
    runInferenceV2 session1 false
        { status := 422, headers := [], errorText := "", chunks := [] } .null =
      (session1,
       [{ event := "c0", data := .str tosMessage },
        { event := "ad", data := .str "err" }], none) := by
  have h := c2_status_422_yields_c0_then_ad_err session1 false
    { status := 422, headers := [], errorText := "", chunks := [] } .null
    (by decide) rfl
  simpa using h.1

/-- A 429 response carrying the image-modality ratelimit header. -/
def resp429Image : RespInfo :=
  { status := 429, headers := [("ratelimit-modality", "image")],
    errorText := "", chunks := [] }

/-- C1: the 429/image recovery branch tests the truthiness of the value
`updateArenaAuth` returns, but that value is a three-element array on every
return path — so it is truthy even when the refresh failed, and the turn
yields the `a0` retry notice plus `ad`/retry instead of the refresh-failed
notice plus `ad`/err that the failed branch was written to produce. -/
theorem c1_failed_refresh_still_yields_retry :
    (∀ (clearance : Option String) (body : String),
        jsTruthy (updateArenaAuthReturn false clearance body) = true)
  ∧ runInferenceV2 session1 false resp429Image
        (updateArenaAuthReturn false none "sign-up failed") =
      (session1,
       [{ event := "a0", data := .str retryNotice },
        { event := "ad", data := .str "retry" }], none)
  ∧ retryNotice ≠ refreshFailedNotice := by
  exact ⟨fun _ _ => rfl, rfl, by decide⟩

/-- The non-success branch of `runInferenceV2` never touches the session. -/
theorem errorBranchV2_fst (s : ChatSession) (resp : RespInfo) (authRet : JVal) :
    (errorBranchV2 s resp authRet).1 = s := by
  unfold errorBranchV2
  split_ifs <;> first
    | rfl
    | (cases jsonParse resp.errorText <;> rfl)

/-- The non-success branch of the legacy `runInference` never touches the
session. -/
theorem errorBranchV1_fst (s : ChatSession) (resp : RespInfo) (authRet : JVal) :
    (errorBranchV1 s resp authRet).1 = s := by
  unfold errorBranchV1
  split_ifs <;> first
    | rfl
    | (cases jsonParse resp.errorText <;> rfl)

/-- The retry-removal step keeps the `exists` flag. -/
theorem beginRetry_doesSessionExist (s : ChatSession) :
    (beginRetry s).doesSessionExist = s.doesSessionExist := rfl

/-- A failed response leaves the `exists` flag of `runInferenceV2` turns
unchanged. -/
theorem runInferenceV2_fail_exists (s : ChatSession) (retry : Bool)
    (resp : RespInfo) (authRet : JVal) (hok : respOk resp = false) :
    (runInferenceV2 s retry resp authRet).1.doesSessionExist =
      s.doesSessionExist := by
  unfold runInferenceV2
  rcases hfe : findByIdExact s.lmSession.messages s.lmSession.userMessageId
    with e | r
  · rfl
  · cases retry <;>
      simp [hok, errorBranchV2_fst, beginRetry_doesSessionExist]

/-- A successful response promotes the `exists` flag of a hole-free
`runInferenceV2` turn. -/
theorem runInferenceV2_ok_exists (s : ChatSession) (retry : Bool)
    (resp : RespInfo) (authRet : JVal)
    (hall : ∀ e ∈ s.lmSession.messages, e.isSome)
    (hok : respOk resp = true) :
    (runInferenceV2 s retry resp authRet).1.doesSessionExist = true := by
  obtain ⟨r, hr⟩ := findByIdExact_allSome s.lmSession.messages
    s.lmSession.userMessageId hall
  unfold runInferenceV2
  rw [hr]
  simp only [hok, if_true]
  rcases hg : findByIdGuarded
      (if retry then beginRetry s else s).lmSession.messages
      (if retry then beginRetry s else s).lmSession.modelAMessageId
    with e | fo
  · simp [hg]
  · cases fo with
    | none =>
      rcases hrs : runStream (lazyPlaceholder
        { (if retry then beginRetry s else s) with doesSessionExist := true })
        resp.chunks with ⟨fm, evs, err⟩
      simp [hg, hrs]
    | some found =>
      rcases hrs : runStream found resp.chunks with ⟨fm, evs, err⟩
      simp [hg, hrs]

/-- No path of `runInferenceV2` ever clears an already-set `exists` flag. -/
theorem runInferenceV2_exists_mono (s : ChatSession) (retry : Bool)
    (resp : RespInfo) (authRet : JVal) (h : s.doesSessionExist = true) :
    (runInferenceV2 s retry resp authRet).1.doesSessionExist = true := by
  cases hok : respOk resp with
  | false => rw [runInferenceV2_fail_exists s retry resp authRet hok, h]
  | true =>
    unfold runInferenceV2
    rcases hfe : findByIdExact s.lmSession.messages s.lmSession.userMessageId
      with e | r
    · simpa using h
    · simp only [hok, if_true]
      rcases hg : findByIdGuarded
          (if retry then beginRetry s else s).lmSession.messages
          (if retry then beginRetry s else s).lmSession.modelAMessageId
        with e | fo
      · simp [hg]
      · cases fo with
        | none =>
          rcases hrs : runStream (lazyPlaceholder
            { (if retry then beginRetry s else s) with
                doesSessionExist := true }) resp.chunks with ⟨fm, evs, err⟩
          simp [hg, hrs]
        | some found =>
          rcases hrs : runStream found resp.chunks with ⟨fm, evs, err⟩
          simp [hg, hrs]

/-- A successful response promotes the `exists` flag of a legacy turn. -/
theorem runInference_ok_exists (s : ChatSession) (retry : Bool)
    (resp : RespInfo) (authRet : JVal) (hok : respOk resp = true) :
    (runInference s retry resp authRet).1.doesSessionExist = true := by
  unfold runInference
  simp only [hok, if_true]
  rcases hg : findByIdGuarded
      (if retry then beginRetry s else s).lmSession.messages
      (if retry then beginRetry s else s).lmSession.modelAMessageId
    with e | fo
  · simp [hg]
  · cases fo with
    | none =>
      rcases hrs : runStreamUndef resp.chunks with ⟨evs, err⟩
      simp [hg, hrs]
    | some found =>
      rcases hrs : runStream found resp.chunks with ⟨fm, evs, err⟩
      simp [hg, hrs]

/-- A failed response leaves the `exists` flag of a legacy turn unchanged. -/
theorem runInference_fail_exists (s : ChatSession) (retry : Bool)
    (resp : RespInfo) (authRet : JVal) (hok : respOk resp = false) :
    (runInference s retry resp authRet).1.doesSessionExist =
      s.doesSessionExist := by
  unfold runInference
  cases retry <;>
    simp [hok, errorBranchV1_fst, beginRetry_doesSessionExist]

/-- C9: the `exists` flag becomes true exactly at a successful turn
response: a successful response sets it (in both turn drivers), every
failed-response path leaves it unchanged, no turn path ever clears a set
flag, a flag observed true after a turn was either already true or set by a
successful response, and only `shuffleSession` resets it — together with a
fresh identifier — while `createSession` starts it false. -/
theorem c9_exists_flag_transitions :
    (∀ (s : ChatSession) (retry : Bool) (resp : RespInfo) (authRet : JVal),
        (∀ e ∈ s.lmSession.messages, e.isSome) → respOk resp = true →
        (runInferenceV2 s retry resp authRet).1.doesSessionExist = true)
  ∧ (∀ (s : ChatSession) (retry : Bool) (resp : RespInfo) (authRet : JVal),
        respOk resp = false →
        (runInferenceV2 s retry resp authRet).1.doesSessionExist =
          s.doesSessionExist)
  ∧ (∀ (s : ChatSession) (retry : Bool) (resp : RespInfo) (authRet : JVal),
        s.doesSessionExist = true →
        (runInferenceV2 s retry resp authRet).1.doesSessionExist = true)
  ∧ (∀ (s : ChatSession) (retry : Bool) (resp : RespInfo) (authRet : JVal),
        (runInferenceV2 s retry resp authRet).1.doesSessionExist = true →
        s.doesSessionExist = true ∨ respOk resp = true)
  ∧ (∀ (s : ChatSession) (retry : Bool) (resp : RespInfo) (authRet : JVal),
        respOk resp = true →
        (runInference s retry resp authRet).1.doesSessionExist = true)
  ∧ (∀ (s : ChatSession) (retry : Bool) (resp : RespInfo) (authRet : JVal),
        respOk resp = false →
        (runInference s retry resp authRet).1.doesSessionExist =
          s.doesSessionExist)
  ∧ (∀ (s : ChatSession) (freshId : String),
        (shuffleSession s freshId).doesSessionExist = false
        ∧ (shuffleSession s freshId).sessionId = freshId
        ∧ (shuffleSession s freshId).lmSession.id = freshId)
  ∧ (∀ modelAId chatModality sessionId : String,
        (createSession modelAId chatModality sessionId).doesSessionExist =
          false) := by
  refine ⟨?_, ?_, ?_, ?_, ?_, ?_, ?_, ?_⟩
  · intro s retry resp authRet hall hok
    exact runInferenceV2_ok_exists s retry resp authRet hall hok
  · intro s retry resp authRet hok
    exact runInferenceV2_fail_exists s retry resp authRet hok
  · intro s retry resp authRet h
    exact runInferenceV2_exists_mono s retry resp authRet h
  · intro s retry resp authRet h
    cases hok : respOk resp with
    | true => exact Or.inr rfl
    | false =>
      refine Or.inl ?_
      rw [← runInferenceV2_fail_exists s retry resp authRet hok]
      exact h
  · intro s retry resp authRet hok
    exact runInference_ok_exists s retry resp authRet hok
  · intro s retry resp authRet hok
    exact runInference_fail_exists s retry resp authRet hok
  · intro s freshId
    exact ⟨rfl, rfl, rfl⟩
  · intro modelAId chatModality sessionId
    rfl

/-- C9 witness: the theorem applied to the concrete one-turn session with a
concrete successful and a concrete failed response. -/
theorem c9_exists_flag_transitions_witness :
    (runInferenceV2 session1 false
        { status := 200, headers := [], errorText := "", chunks := [] }
        .null).1.doesSessionExist = true
  ∧ (runInferenceV2 session1 false
        { status := 500, headers := [], errorText := "", chunks := [] }
        .null).1.doesSessionExist = session1.doesSessionExist
  ∧ (shuffleSession session1 "sess-2").doesSessionExist = false := by
  exact ⟨c9_exists_flag_transitions.1 session1 false _ .null (by decide) rfl,
         c9_exists_flag_transitions.2.1 session1 false _ .null rfl,
         (c9_exists_flag_transitions.2.2.2.2.2.2.1 session1 "sess-2").1⟩

/-- The guarded lookup raises once the scan reaches a hole, which it does
whenever no earlier entry satisfies the predicate. -/
theorem findByIdGuarded_error (msgs : List (Option LMMessage)) (t : String)
    (hnomatch : ∀ m : LMMessage, some m ∈ msgs → ¬(m.id ≠ "" ∧ m.id = t))
    (hhole : none ∈ msgs) :
    findByIdGuarded msgs t = .error .typeError := by
  induction msgs with
  | nil => simp at hhole
  | cons e rest ih =>
    cases e with
    | none => rfl
    | some m =>
      have hc := hnomatch m (by simp)
      rw [findByIdGuarded, if_neg hc]
      refine ih (fun m1 h1 => hnomatch m1 (by simp [h1])) ?_
      rcases List.mem_cons.mp hhole with h | h
      · cases h
      · exact h

/-- No wire message surviving the retry-removal step matches the assistant
id even case-insensitively. -/
theorem beginRetry_lower_ne (s : ChatSession) (m : LMMessage)
    (hm : some m ∈ (beginRetry s).lmSession.messages) :
    jsToLower m.id ≠ jsToLower s.lmSession.modelAMessageId := by
  simp only [beginRetry, List.mem_map] at hm
  obtain ⟨entry, hin, hmap⟩ := hm
  cases entry with
  | none => simp at hmap
  | some m0 =>
    by_cases hl : jsToLower m0.id = jsToLower s.lmSession.modelAMessageId
    · simp [hl] at hmap
    · simp [hl] at hmap
      rwa [← hmap]

/-- If the wire graph held an entry matching the assistant id, the retry
removal leaves a hole. -/
theorem beginRetry_hole (s : ChatSession)
    (hex : ∃ m : LMMessage, some m ∈ s.lmSession.messages ∧
      jsToLower m.id = jsToLower s.lmSession.modelAMessageId) :
    none ∈ (beginRetry s).lmSession.messages := by
  obtain ⟨m, hm, hl⟩ := hex
  simp only [beginRetry, List.mem_map]
  exact ⟨some m, hm, by simp [hl]⟩

/-- A successful empty-bodied response to a retry turn. -/
def respOkEmpty : RespInfo :=
  { status := 200, headers := [], errorText := "", chunks := [] }

/-- C10 counterexample: on a legacy retry turn with a successful response
whose body holds no records at all, the turn still raises a TypeError — so
the error does not arise at the first decoded `a0`/`a2`/`ad` record — and
the placeholder lookup itself evaluates to the raised TypeError, not to the
"found no message" result the claim describes. -/
theorem c10_lookup_itself_raises_counterexample :
    runInference session1 true respOkEmpty .null =
      ({ beginRetry session1 with doesSessionExist := true }, [],
       some .typeError)
  ∧ findByIdGuarded (beginRetry session1).lmSession.messages "asst-1" =
      .error .typeError
  ∧ findByIdGuarded (beginRetry session1).lmSession.messages "asst-1" ≠
      .ok none
  ∧ respOkEmpty.chunks = [] := by
  refine ⟨rfl, rfl, ?_, rfl⟩
  intro h
  rw [show findByIdGuarded (beginRetry session1).lmSession.messages "asst-1" =
    .error .typeError from rfl] at h
  cases h

/-- C10 amended: on a legacy retry turn whose request receives a successful
response, the assistant-placeholder lookup itself raises the TypeError: the
retry step left a hole in place of the placeholder, the lookup's predicate
dereferences that undefined slot, and the turn ends with no event yielded —
before any stream record is processed, whatever the body holds. -/
theorem c10_retry_lookup_raises_typeerror :
    ∀ (s : ChatSession) (resp : RespInfo) (authRet : JVal),
      respOk resp = true →
      (∃ m : LMMessage, some m ∈ s.lmSession.messages ∧
        jsToLower m.id = jsToLower s.lmSession.modelAMessageId) →
      runInference s true resp authRet =
        ({ beginRetry s with doesSessionExist := true }, [],
         some .typeError) := by
  intro s resp authRet hok hex
  have hfind : findByIdGuarded (beginRetry s).lmSession.messages
      (beginRetry s).lmSession.modelAMessageId = .error .typeError := by
    refine findByIdGuarded_error _ _ ?_ (beginRetry_hole s hex)
    intro m hm hcond
    exact beginRetry_lower_ne s m hm (by rw [hcond.2]; rfl)
  unfold runInference
  simp [hok, hfind]

/-- C10 witness: the amended theorem applied to the concrete retry turn,
here with a body that does contain an `a0` record — still no event. -/
theorem c10_retry_lookup_raises_typeerror_witness :
    runInference session1 true
        { status := 200, headers := [], errorText := "",
          chunks := ["a0:\"hi\"\n".toList] } .null =
      ({ beginRetry session1 with doesSessionExist := true }, [],
       some .typeError) := by
  refine c10_retry_lookup_raises_typeerror session1 _ .null rfl
    ⟨{ id := "asst-1", content := "", evaluationSessionId := "sess-1",
       role := "assistant", modelId := some "model-1",
       parentMessageIds := ["user-1"], participantPosition := "a",
       status := "pending", experimental_attachments := [] }, ?_, rfl⟩
  exact List.mem_cons_of_mem _ (List.mem_cons_self _ _)
